import Mathlib

/-!
Shallow embedding of the snake-game core from `src/src/components/SnakeGame.tsx`.

State held in React hooks becomes an explicit `GameState` record; the tick
callback `moveSnake`, the key handler, `initGame`, and the placement
generators become pure functions on it.  `Math.random()`-driven rejection
sampling is modelled by an explicit random stream `Nat → Nat × Nat` (each
entry standing for one pair of `Math.floor(Math.random() * GRID_SIZE)`
draws, hence reduced mod 15), a running stream index, and a fuel bound:
running out of fuel returns `none` where the source would keep looping.
-/

namespace Snake

/-- `const GRID_SIZE = 15`. -/
def GRID_SIZE : Int := 15

/-- `const INITIAL_SPEED = 150`. -/
def INITIAL_SPEED : Nat := 150

/-- `const SPEED_INCREASE = 5`. -/
def SPEED_INCREASE : Nat := 5

/-- `const MIN_SPEED = 50`. -/
def MIN_SPEED : Nat := 50

/-- `type Position = { x: number; y: number }`; coordinates are JS numbers
that the tick arithmetic can drive negative, so `Int`. -/
structure Pos where
  x : Int
  y : Int
deriving DecidableEq, Repr

/-- `type Direction = 'UP' | 'DOWN' | 'LEFT' | 'RIGHT'`. -/
inductive Direction
  | UP
  | DOWN
  | LEFT
  | RIGHT
deriving DecidableEq, Repr

/-- `interface Obstacle { position; logo; id }`; the logo is an index into
the two-element `logos` palette. -/
structure Obstacle where
  position : Pos
  logo : Nat
  id : Nat
deriving DecidableEq, Repr

/-- The coordinatewise equality test `pos.x === p.x && pos.y === p.y`
used by every collision / exclusion check in the source. -/
def posEq (a b : Pos) : Bool :=
  a.x == b.x && a.y == b.y

/-- `list.some(pos => pos.x === p.x && pos.y === p.y)`. -/
def containsPos (l : List Pos) (p : Pos) : Bool :=
  l.any (fun q => posEq q p)

/-- The loop ranges `for (let d = -1; d <= 1; d++)`. -/
def offsets : List Int := [-1, 0, 1]

/-- `getSnakeBufferZone`: all cells within Chebyshev distance 1 of a snake
cell, clipped to the board. -/
def getSnakeBufferZone (snakePositions : List Pos) : List Pos :=
  snakePositions.flatMap (fun pos =>
    offsets.flatMap (fun dx =>
      offsets.filterMap (fun dy =>
        let bufferPos : Pos := { x := pos.x + dx, y := pos.y + dy }
        if bufferPos.x ≥ 0 && bufferPos.x < GRID_SIZE &&
            bufferPos.y ≥ 0 && bufferPos.y < GRID_SIZE then
          some bufferPos
        else none)))

/-- One candidate draw
`{ x: Math.floor(Math.random() * GRID_SIZE), y: Math.floor(Math.random() * GRID_SIZE) }`:
entry `i` of the abstract random stream, reduced into `[0, 15)` on each axis. -/
def randCell (stream : Nat → Nat × Nat) (i : Nat) : Pos :=
  { x := Int.ofNat ((stream i).1 % 15), y := Int.ofNat ((stream i).2 % 15) }

/-- The `do … while (excludePositions.some(…))` rejection loop of
`generateRandomPosition`, with an explicit stream cursor `i` and a fuel
bound on the number of draws; returns the accepted cell and the next
unused cursor. -/
def genPosAux (stream : Nat → Nat × Nat) (excludePositions : List Pos) :
    Nat → Nat → Option (Pos × Nat)
  | _, 0 => none
  | i, fuel + 1 =>
    let newPosition := randCell stream i
    if containsPos excludePositions newPosition then
      genPosAux stream excludePositions (i + 1) fuel
    else
      some (newPosition, i + 1)

/-- `generateRandomPosition(excludePositions)`, drawing from the start of
the stream. -/
def generateRandomPosition (stream : Nat → Nat × Nat) (excludePositions : List Pos)
    (fuel : Nat) : Option (Pos × Nat) :=
  genPosAux stream excludePositions 0 fuel

/-- The `for (let i = 0; i < count; i++)` loop body of `generateObstacles`:
each pick excludes `excludePositions` plus the obstacles placed so far
(`placed`), logos cycle as `i % 2`, ids come from the `obstacleIdRef`
counter `oid`. -/
def genObstaclesAux (stream : Nat → Nat × Nat) (fuel : Nat)
    (excludePositions : List Pos) :
    Nat → Nat → Nat → Nat → List Pos → Option (List Obstacle × Nat × Nat)
  | 0, _, idx, oid, _ => some ([], idx, oid)
  | remaining + 1, i, idx, oid, placed =>
    match genPosAux stream (excludePositions ++ placed) idx fuel with
    | none => none
    | some (p, idx') =>
      match genObstaclesAux stream fuel excludePositions
          remaining (i + 1) idx' (oid + 1) (placed ++ [p]) with
      | none => none
      | some (rest, idx2, oid2) =>
        some ({ position := p, logo := i % 2, id := oid } :: rest, idx2, oid2)

/-- `generateObstacles(count, snakePositions, foodPosition)`: the base
exclusion set is `[...snakePositions, ...bufferZone, foodPosition]`. -/
def generateObstacles (stream : Nat → Nat × Nat) (fuel : Nat) (count : Nat)
    (snakePositions : List Pos) (foodPosition : Pos) (idx oid : Nat) :
    Option (List Obstacle × Nat × Nat) :=
  let bufferZone := getSnakeBufferZone snakePositions
  let excludePositions := snakePositions ++ bufferZone ++ [foodPosition]
  genObstaclesAux stream fuel excludePositions count 0 idx oid []

/-- The component's hook state: snake, food, direction (`directionRef`),
flags, score, highScore, speed, obstacles, and the `obstacleIdRef` counter. -/
structure GameState where
  snake : List Pos
  food : Pos
  direction : Direction
  gameOver : Bool
  score : Nat
  highScore : Nat
  isPaused : Bool
  gameStarted : Bool
  speed : Nat
  obstacles : List Obstacle
  obstacleId : Nat
deriving DecidableEq, Repr

/-- The `useState` initial values. -/
def initialState : GameState :=
  { snake := [{ x := 10, y := 10 }]
    food := { x := 5, y := 5 }
    direction := .RIGHT
    gameOver := false
    score := 0
    highScore := 0
    isPaused := false
    gameStarted := false
    speed := INITIAL_SPEED
    obstacles := []
    obstacleId := 0 }

/-- `initGame()`: resets snake, direction, gameOver, score and speed, then
places food (excluding the snake and its buffer zone) and 3 obstacles.
`highScore`, `isPaused` and `gameStarted` are left untouched. -/
def initGame (stream : Nat → Nat × Nat) (fuel : Nat) (s : GameState) (idx : Nat) :
    Option (GameState × Nat) :=
  let initialSnake : List Pos := [{ x := 10, y := 10 }]
  let bufferZone := getSnakeBufferZone initialSnake
  match genPosAux stream (initialSnake ++ bufferZone) idx fuel with
  | none => none
  | some (newFood, idx') =>
    match generateObstacles stream fuel 3 initialSnake newFood idx' s.obstacleId with
    | none => none
    | some (newObstacles, idx2, oid2) =>
      some ({ s with
                snake := initialSnake
                direction := .RIGHT
                gameOver := false
                score := 0
                speed := INITIAL_SPEED
                food := newFood
                obstacles := newObstacles
                obstacleId := oid2 }, idx2)

/-- The `switch (currentDirection)` head update. -/
def applyDirection (d : Direction) (p : Pos) : Pos :=
  match d with
  | .UP => { x := p.x, y := p.y - 1 }
  | .DOWN => { x := p.x, y := p.y + 1 }
  | .LEFT => { x := p.x - 1, y := p.y }
  | .RIGHT => { x := p.x + 1, y := p.y }

/-- `head.x < 0 || head.x >= GRID_SIZE || head.y < 0 || head.y >= GRID_SIZE`. -/
def outOfBounds (p : Pos) : Bool :=
  p.x < 0 || p.x ≥ GRID_SIZE || p.y < 0 || p.y ≥ GRID_SIZE

/-- The shared death path: `setGameOver(true)` plus
`if (score > highScore) setHighScore(score)`, everything else untouched. -/
def recordGameOver (s : GameState) : GameState :=
  { s with
      gameOver := true
      highScore := if s.highScore < s.score then s.score else s.highScore }

/-- `moveSnake()`, one tick.  A paused / over / unstarted session is a
no-op.  Death (wall, self, obstacle) keeps the snake (`return prevSnake`).
Eating regenerates food and the whole obstacle set with
`Math.min(3 + Math.floor((score + 10) / 50), 8)` obstacles and keeps the
tail; otherwise the tail is popped.  An empty snake (unreachable in the
source, which would read `prevSnake[0]` of an empty array) is `none`. -/
def moveSnake (stream : Nat → Nat × Nat) (fuel : Nat) (s : GameState) (idx : Nat) :
    Option (GameState × Nat) :=
  if s.gameOver || s.isPaused || !s.gameStarted then some (s, idx)
  else
    match s.snake with
    | [] => none
    | prevHead :: _ =>
      let head := applyDirection s.direction prevHead
      if outOfBounds head then some (recordGameOver s, idx)
      else if containsPos s.snake head then some (recordGameOver s, idx)
      else if s.obstacles.any (fun obs => posEq obs.position head) then
        some (recordGameOver s, idx)
      else
        let newSnake := head :: s.snake
        if posEq head s.food then
          match genPosAux stream (newSnake ++ getSnakeBufferZone newSnake) idx fuel with
          | none => none
          | some (newFood, idx') =>
            let obstacleCount := min (3 + (s.score + 10) / 50) 8
            match generateObstacles stream fuel obstacleCount newSnake newFood
                idx' s.obstacleId with
            | none => none
            | some (newObstacles, idx2, oid2) =>
              some ({ s with
                        snake := newSnake
                        score := s.score + 10
                        speed := max MIN_SPEED (s.speed - SPEED_INCREASE)
                        food := newFood
                        obstacles := newObstacles
                        obstacleId := oid2 }, idx2)
        else
          some ({ s with snake := newSnake.dropLast }, idx)

/-- The key classes the handler distinguishes: the four direction groups
(each standing for its arrow key and both letter aliases), space, and
everything else. -/
inductive Key
  | up
  | down
  | left
  | right
  | space
  | other
deriving DecidableEq, Repr

/-- The `switch (e.key)` candidate computation: `newDirection` stays
`null` when the key is unrecognised or the candidate is the reverse of
`directionRef.current`. -/
def keyCandidate (currentDir : Direction) (k : Key) : Option Direction :=
  match k with
  | .up => if currentDir ≠ .DOWN then some .UP else none
  | .down => if currentDir ≠ .UP then some .DOWN else none
  | .left => if currentDir ≠ .RIGHT then some .LEFT else none
  | .right => if currentDir ≠ .LEFT then some .RIGHT else none
  | .space => none
  | .other => none

/-- `if (newDirection) directionRef.current = newDirection`: the committed
heading after one key event. -/
def handleDirectionKey (currentDir : Direction) (k : Key) : Direction :=
  match keyCandidate currentDir k with
  | some d => d
  | none => currentDir

/-- `handleKeyPress`: ignored before start; space restarts when over and
toggles pause otherwise; direction keys are dropped when over or paused
and otherwise commit through `handleDirectionKey`. -/
def handleKeyPress (stream : Nat → Nat × Nat) (fuel : Nat) (s : GameState)
    (k : Key) (idx : Nat) : Option (GameState × Nat) :=
  if !s.gameStarted then some (s, idx)
  else if k = .space then
    if s.gameOver then initGame stream fuel s idx
    else some ({ s with isPaused := !s.isPaused }, idx)
  else if s.gameOver || s.isPaused then some (s, idx)
  else some ({ s with direction := handleDirectionKey s.direction k }, idx)

/-- The inbound events of the component: a scheduler tick, a key press,
and the three buttons (START GAME, PLAY AGAIN, EXIT), each only rendered
in the state its guard tests. -/
inductive Event
  | tick
  | key (k : Key)
  | start
  | playAgain
  | exitGame
deriving DecidableEq, Repr

/-- One serialized state update for one inbound event.  `start` is
`setGameStarted(true)` followed by `initGame()`; PLAY AGAIN is `initGame`
and EXIT clears `gameOver` and `gameStarted`, both buttons existing only
on the game-over overlay. -/
def step (stream : Nat → Nat × Nat) (fuel : Nat) (s : GameState) (e : Event)
    (idx : Nat) : Option (GameState × Nat) :=
  match e with
  | .tick => moveSnake stream fuel s idx
  | .key k => handleKeyPress stream fuel s k idx
  | .start =>
    if s.gameStarted then some (s, idx)
    else initGame stream fuel { s with gameStarted := true } idx
  | .playAgain => if s.gameOver then initGame stream fuel s idx else some (s, idx)
  | .exitGame =>
    if s.gameOver then some ({ s with gameOver := false, gameStarted := false }, idx)
    else some (s, idx)

/-- Run a list of events from a given state and stream cursor. -/
def runFrom (stream : Nat → Nat × Nat) (fuel : Nat) :
    List Event → GameState × Nat → Option (GameState × Nat)
  | [], si => some si
  | e :: evs, si =>
    match step stream fuel si.1 e si.2 with
    | none => none
    | some si' => runFrom stream fuel evs si'

/-- Run a list of events from the component's initial hook state. -/
def runEvents (stream : Nat → Nat × Nat) (fuel : Nat) (evs : List Event) :
    Option (GameState × Nat) :=
  runFrom stream fuel evs (initialState, 0)

/-- The direct reverse of a heading, the notion the input controller's
reversal guard (`currentDir !== 'DOWN'` etc.) is about. -/
def opposite : Direction → Direction
  | .UP => .DOWN
  | .DOWN => .UP
  | .LEFT => .RIGHT
  | .RIGHT => .LEFT

/-- The key class that requests a given heading. -/
def keyFor : Direction → Key
  | .UP => .up
  | .DOWN => .down
  | .LEFT => .left
  | .RIGHT => .right

/-- The Running state of the tick-engine state machine: started, not
paused, not over. -/
def Running (s : GameState) : Prop :=
  s.gameOver = false ∧ s.isPaused = false ∧ s.gameStarted = true

/-- The invariant holding right after a placement event: the food is off
the snake and off every obstacle, and the obstacle positions are pairwise
distinct and avoid the snake, its buffer zone and the food. -/
def placementOK (snakeCells : List Pos) (food : Pos) (obstacles : List Obstacle) : Prop :=
  food ∉ snakeCells ∧
  (∀ o ∈ obstacles, o.position ≠ food ∧ o.position ∉ snakeCells ∧
    o.position ∉ getSnakeBufferZone snakeCells) ∧
  List.Pairwise (fun a b => a.position ≠ b.position) obstacles

/-- A concrete random stream used for evaluations: draw `i` is `(i, i)`. -/
def diagStream : Nat → Nat × Nat := fun i => (i, i)

/-- A concrete random stream that enumerates the whole board:
draw `i` yields the cell `(i % 15, (i / 15) % 15)`. -/
def enumStream : Nat → Nat × Nat := fun i => (i, i / 15)

/-- A running session with a one-cell snake at (5,5) and far-away food. -/
def demoState : GameState :=
  { initialState with
      gameStarted := true
      snake := [{ x := 5, y := 5 }]
      food := { x := 0, y := 0 } }

/-- A running session whose next RIGHT step leaves the board. -/
def wallState : GameState :=
  { initialState with
      gameStarted := true
      snake := [{ x := 14, y := 10 }]
      score := 30
      highScore := 20 }

/-- A running session heading LEFT straight onto its own tail cell. -/
def tailState : GameState :=
  { initialState with
      gameStarted := true
      snake := [{ x := 5, y := 5 }, { x := 4, y := 5 }]
      direction := .LEFT }

/-- A running session whose next RIGHT step lands on the food. -/
def eatState : GameState :=
  { initialState with gameStarted := true, food := { x := 11, y := 10 } }

/-- The initial session, started. -/
def runState : GameState := { initialState with gameStarted := true }

/-- The obstacle list `initGame` and the `eatState` tick place when fed
`diagStream`. -/
def diagObstacles : List Obstacle :=
  [{ position := { x := 1, y := 1 }, logo := 0, id := 0 },
    { position := { x := 2, y := 2 }, logo := 1, id := 1 },
    { position := { x := 3, y := 3 }, logo := 0, id := 2 }]

/-- The state `initGame diagStream 2 initialState 0` produces. -/
def initResult : GameState :=
  { initialState with
      food := { x := 0, y := 0 }
      obstacles := diagObstacles
      obstacleId := 3 }

/-- The state one plain tick of `runState` produces. -/
def tickResult : GameState :=
  { initialState with
      gameStarted := true
      snake := [{ x := 11, y := 10 }] }

/-- The state the food-eat tick of `eatState` produces under `diagStream`. -/
def eatResult : GameState :=
  { initialState with
      gameStarted := true
      snake := [{ x := 11, y := 10 }, { x := 10, y := 10 }]
      food := { x := 0, y := 0 }
      score := 10
      speed := 145
      obstacles := diagObstacles
      obstacleId := 3 }

/-- The state reached from the idle initial state by the START button and
one tick under `diagStream`. -/
def runResult : GameState :=
  { initialState with
      gameStarted := true
      snake := [{ x := 11, y := 10 }]
      food := { x := 0, y := 0 }
      obstacles := diagObstacles
      obstacleId := 3 }

/-! ### Basic lemmas about the cell-level operations -/

theorem posEq_iff {a b : Pos} : posEq a b = true ↔ a = b := by
  cases a
  cases b
  simp [posEq, Pos.mk.injEq]

theorem containsPos_iff {l : List Pos} {p : Pos} : containsPos l p = true ↔ p ∈ l := by
  simp [containsPos, List.any_eq_true, posEq_iff]

theorem containsPos_eq_false {l : List Pos} {p : Pos} :
    containsPos l p = false ↔ p ∉ l := by
  rw [← containsPos_iff]
  cases h : containsPos l p <;> simp

theorem randCell_inBounds (stream : Nat → Nat × Nat) (i : Nat) :
    outOfBounds (randCell stream i) = false := by
  have h1 : (stream i).1 % 15 < 15 := Nat.mod_lt _ (by norm_num)
  have h2 : (stream i).2 % 15 < 15 := Nat.mod_lt _ (by norm_num)
  simp [outOfBounds, randCell, GRID_SIZE]
  omega

/-- A successful draw is never in the exclusion list and is on the board. -/
theorem genPosAux_some (stream : Nat → Nat × Nat) (excl : List Pos) :
    ∀ fuel i p i', genPosAux stream excl i fuel = some (p, i') →
      containsPos excl p = false ∧ outOfBounds p = false := by
  intro fuel
  induction fuel with
  | zero =>
    intro i p i' h
    simp [genPosAux] at h
  | succ n ih =>
    intro i p i' h
    simp only [genPosAux] at h
    split at h
    · exact ih (i + 1) p i' h
    · rename_i hc
      simp only [Option.some.injEq, Prod.mk.injEq] at h
      obtain ⟨hp, -⟩ := h
      subst hp
      exact ⟨by simpa using hc, randCell_inBounds stream i⟩

/-- If some draw within the fuel bound is acceptable, the loop succeeds. -/
theorem genPosAux_found (stream : Nat → Nat × Nat) (excl : List Pos) :
    ∀ fuel i, (∃ j, j < fuel ∧ containsPos excl (randCell stream (i + j)) = false) →
      ∃ p i', genPosAux stream excl i fuel = some (p, i') := by
  intro fuel
  induction fuel with
  | zero =>
    intro i h
    obtain ⟨j, hj, -⟩ := h
    omega
  | succ n ih =>
    intro i h
    obtain ⟨j, hj, hfree⟩ := h
    simp only [genPosAux]
    split
    · rename_i hc
      apply ih (i + 1)
      have hj0 : j ≠ 0 := by
        intro h0
        subst h0
        rw [Nat.add_zero] at hfree
        rw [hc] at hfree
        exact Bool.true_eq_false.mp hfree
      refine ⟨j - 1, by omega, ?_⟩
      have harith : i + 1 + (j - 1) = i + j := by omega
      rw [harith]
      exact hfree
    · exact ⟨_, _, rfl⟩

/-- If the exclusion list covers the whole board, the loop never returns. -/
theorem genPosAux_none (stream : Nat → Nat × Nat) (excl : List Pos)
    (hfull : ∀ p, outOfBounds p = false → containsPos excl p = true) :
    ∀ fuel i, genPosAux stream excl i fuel = none := by
  intro fuel
  induction fuel with
  | zero =>
    intro i
    simp [genPosAux]
  | succ n ih =>
    intro i
    simp only [genPosAux]
    rw [if_pos (hfull _ (randCell_inBounds stream i))]
    exact ih (i + 1)

/-- The obstacle loop, on success, produces exactly `remaining` obstacles,
all avoiding the base exclusion list and the already placed cells, with
pairwise distinct positions. -/
theorem genObstaclesAux_spec (stream : Nat → Nat × Nat) (fuel : Nat) (excl : List Pos) :
    ∀ remaining i idx oid placed obs idx2 oid2,
      genObstaclesAux stream fuel excl remaining i idx oid placed =
        some (obs, idx2, oid2) →
      obs.length = remaining ∧
      (∀ o ∈ obs, o.position ∉ excl ∧ o.position ∉ placed) ∧
      List.Pairwise (fun a b => a.position ≠ b.position) obs := by
  intro remaining
  induction remaining with
  | zero =>
    intro i idx oid placed obs idx2 oid2 h
    simp only [genObstaclesAux, Option.some.injEq, Prod.mk.injEq] at h
    obtain ⟨h1, -, -⟩ := h
    subst h1
    simp
  | succ n ih =>
    intro i idx oid placed obs idx2 oid2 h
    simp only [genObstaclesAux] at h
    split at h
    · exact absurd h (by simp)
    · rename_i p idx' hpick
      split at h
      · exact absurd h (by simp)
      · rename_i rest idxr oidr hrec
        simp only [Option.some.injEq, Prod.mk.injEq] at h
        obtain ⟨hobs, -, -⟩ := h
        subst hobs
        obtain ⟨hnotexcl, -⟩ := genPosAux_some stream (excl ++ placed) fuel idx p idx' hpick
        have hp := containsPos_eq_false.mp hnotexcl
        rw [List.mem_append] at hp
        push_neg at hp
        obtain ⟨hlen, hmem, hpw⟩ := ih (i + 1) idx' (oid + 1) (placed ++ [p]) rest idxr oidr hrec
        refine ⟨by simp [hlen], ?_, ?_⟩
        · intro o ho
          rcases List.mem_cons.mp ho with hh | ht
          · subst hh
            exact ⟨hp.1, hp.2⟩
          · obtain ⟨h1, h2⟩ := hmem o ht
            rw [List.mem_append] at h2
            push_neg at h2
            exact ⟨h1, h2.1⟩
        · rw [List.pairwise_cons]
          refine ⟨?_, hpw⟩
          intro b hb
          obtain ⟨-, h2⟩ := hmem b hb
          rw [List.mem_append] at h2
          push_neg at h2
          have := h2.2
          simp only [List.mem_singleton] at this
          exact fun hpb => this (hpb ▸ rfl)

/-- `generateObstacles`, on success: exactly `count` obstacles, all off the
snake, off its buffer zone and off the food, pairwise distinct. -/
theorem generateObstacles_spec (stream : Nat → Nat × Nat) (fuel count : Nat)
    (snakeCells : List Pos) (foodPosition : Pos) (idx oid : Nat)
    (obs : List Obstacle) (idx2 oid2 : Nat)
    (h : generateObstacles stream fuel count snakeCells foodPosition idx oid =
      some (obs, idx2, oid2)) :
    obs.length = count ∧
    (∀ o ∈ obs, o.position ∉ snakeCells ∧
      o.position ∉ getSnakeBufferZone snakeCells ∧ o.position ≠ foodPosition) ∧
    List.Pairwise (fun a b => a.position ≠ b.position) obs := by
  unfold generateObstacles at h
  obtain ⟨hlen, hmem, hpw⟩ := genObstaclesAux_spec stream fuel _ count 0 idx oid [] obs idx2 oid2 h
  refine ⟨hlen, ?_, hpw⟩
  intro o ho
  obtain ⟨h1, -⟩ := hmem o ho
  rw [List.mem_append, List.mem_append] at h1
  push_neg at h1
  refine ⟨h1.1.1, h1.1.2, ?_⟩
  have := h1.2
  simp only [List.mem_singleton] at this
  exact this

/-! ### State-level lemmas -/

/-- Everything `initGame` establishes on success. -/
theorem initGame_spec (stream : Nat → Nat × Nat) (fuel : Nat) (s : GameState)
    (idx : Nat) (s' : GameState) (idx2 : Nat)
    (h : initGame stream fuel s idx = some (s', idx2)) :
    s'.snake = [{ x := 10, y := 10 }] ∧ s'.direction = .RIGHT ∧
    s'.gameOver = false ∧ s'.score = 0 ∧ s'.speed = INITIAL_SPEED ∧
    s'.highScore = s.highScore ∧ s'.isPaused = s.isPaused ∧
    s'.gameStarted = s.gameStarted ∧ s'.obstacles.length = 3 ∧
    placementOK s'.snake s'.food s'.obstacles := by
  simp only [initGame] at h
  split at h
  · exact absurd h (by simp)
  · rename_i newFood idx' hfood
    split at h
    · exact absurd h (by simp)
    · rename_i newObstacles idxo oido hobs
      simp only [Option.some.injEq, Prod.mk.injEq] at h
      obtain ⟨hs, -⟩ := h
      subst hs
      obtain ⟨hfnot, -⟩ := genPosAux_some stream _ fuel idx newFood idx' hfood
      have hf : newFood ∉
          ([{ x := 10, y := 10 }] : List Pos) ++
            getSnakeBufferZone [{ x := 10, y := 10 }] :=
        containsPos_eq_false.mp hfnot
      rw [List.mem_append] at hf
      push_neg at hf
      obtain ⟨hlen, hmem, hpw⟩ := generateObstacles_spec stream fuel 3 _ newFood
        idx' s.obstacleId newObstacles idxo oido hobs
      refine ⟨rfl, rfl, rfl, rfl, rfl, rfl, rfl, rfl, hlen, hf.1, ?_, hpw⟩
      intro o ho
      obtain ⟨ho1, ho2, ho3⟩ := hmem o ho
      exact ⟨ho3, ho1, ho2⟩

/-- A paused, over, or unstarted tick is a no-op. -/
theorem moveSnake_noop (stream : Nat → Nat × Nat) (fuel : Nat) (s : GameState)
    (idx : Nat)
    (h : s.gameOver = true ∨ s.isPaused = true ∨ s.gameStarted = false) :
    moveSnake stream fuel s idx = some (s, idx) := by
  rcases h with h | h | h <;> simp [moveSnake, h]

/-- Any of the three collision conditions yields `recordGameOver` with the
stream cursor untouched. -/
theorem moveSnake_death (stream : Nat → Nat × Nat) (fuel : Nat) (s : GameState)
    (idx : Nat) (prevHead : Pos) (rest : List Pos)
    (hrun : Running s) (hsnake : s.snake = prevHead :: rest)
    (hdeath : outOfBounds (applyDirection s.direction prevHead) = true ∨
      containsPos s.snake (applyDirection s.direction prevHead) = true ∨
      s.obstacles.any
        (fun obs => posEq obs.position (applyDirection s.direction prevHead)) = true) :
    moveSnake stream fuel s idx = some (recordGameOver s, idx) := by
  obtain ⟨h1, h2, h3⟩ := hrun
  rw [hsnake] at hdeath
  simp only [moveSnake, h1, h2, h3, hsnake, Bool.or_self, Bool.not_true, Bool.or_false,
    Bool.false_eq_true, if_false]
  rcases hdeath with hd | hd | hd
  · rw [if_pos hd]
  · by_cases ho : outOfBounds (applyDirection s.direction prevHead) = true
    · rw [if_pos ho]
    · rw [if_neg ho, if_pos hd]
  · by_cases ho : outOfBounds (applyDirection s.direction prevHead) = true
    · rw [if_pos ho]
    · by_cases hc : containsPos (prevHead :: rest) (applyDirection s.direction prevHead) = true
      · rw [if_neg ho, if_pos hc]
      · rw [if_neg ho, if_neg hc, if_pos hd]

/-- Everything a successful, surviving food-eat tick establishes. -/
theorem moveSnake_eat_spec (stream : Nat → Nat × Nat) (fuel : Nat) (s : GameState)
    (idx : Nat) (prevHead : Pos) (rest : List Pos) (s' : GameState) (idx2 : Nat)
    (hrun : Running s) (hsnake : s.snake = prevHead :: rest)
    (heat : posEq (applyDirection s.direction prevHead) s.food = true)
    (hmove : moveSnake stream fuel s idx = some (s', idx2))
    (hover : s'.gameOver = false) :
    s'.snake = applyDirection s.direction prevHead :: s.snake ∧
    s'.score = s.score + 10 ∧
    s'.speed = max MIN_SPEED (s.speed - SPEED_INCREASE) ∧
    s'.obstacles.length = min (3 + (s.score + 10) / 50) 8 ∧
    s'.highScore = s.highScore ∧
    placementOK s'.snake s'.food s'.obstacles := by
  obtain ⟨h1, h2, h3⟩ := hrun
  simp only [moveSnake, h1, h2, h3, hsnake, heat, Bool.or_self, Bool.not_true,
    Bool.or_false, Bool.false_eq_true, if_false, if_true] at hmove
  split at hmove
  · simp only [Option.some.injEq, Prod.mk.injEq] at hmove
    obtain ⟨hs, -⟩ := hmove
    rw [← hs] at hover
    simp [recordGameOver] at hover
  · split at hmove
    · simp only [Option.some.injEq, Prod.mk.injEq] at hmove
      obtain ⟨hs, -⟩ := hmove
      rw [← hs] at hover
      simp [recordGameOver] at hover
    · split at hmove
      · simp only [Option.some.injEq, Prod.mk.injEq] at hmove
        obtain ⟨hs, -⟩ := hmove
        rw [← hs] at hover
        simp [recordGameOver] at hover
      · split at hmove
        · exact absurd hmove (by simp)
        · rename_i newFood idx' hfood
          split at hmove
          · exact absurd hmove (by simp)
          · rename_i newObstacles idxo oido hobs
            simp only [Option.some.injEq, Prod.mk.injEq] at hmove
            obtain ⟨hs, -⟩ := hmove
            subst hs
            obtain ⟨hfnot, -⟩ := genPosAux_some stream _ fuel idx newFood idx' hfood
            have hf : newFood ∉
                (applyDirection s.direction prevHead :: prevHead :: rest) ++
                  getSnakeBufferZone
                    (applyDirection s.direction prevHead :: prevHead :: rest) :=
              containsPos_eq_false.mp hfnot
            rw [List.mem_append] at hf
            push_neg at hf
            obtain ⟨hlen, hmem, hpw⟩ := generateObstacles_spec stream fuel _ _
              newFood idx' s.obstacleId newObstacles idxo oido hobs
            refine ⟨by rw [hsnake], rfl, rfl, hlen, rfl, hf.1, ?_, hpw⟩
            intro o ho
            obtain ⟨ho1, ho2, ho3⟩ := hmem o ho
            exact ⟨ho3, ho1, ho2⟩

/-- A surviving tick that does not land on the food pops the tail and
changes nothing else. -/
theorem moveSnake_noeat (stream : Nat → Nat × Nat) (fuel : Nat) (s : GameState)
    (idx : Nat) (prevHead : Pos) (rest : List Pos) (s' : GameState) (idx2 : Nat)
    (hrun : Running s) (hsnake : s.snake = prevHead :: rest)
    (hnoeat : posEq (applyDirection s.direction prevHead) s.food = false)
    (hmove : moveSnake stream fuel s idx = some (s', idx2))
    (hover : s'.gameOver = false) :
    s'.snake = (applyDirection s.direction prevHead :: s.snake).dropLast ∧
    s'.food = s.food ∧ s'.direction = s.direction ∧ s'.score = s.score ∧
    s'.highScore = s.highScore ∧ s'.speed = s.speed ∧
    s'.obstacles = s.obstacles ∧ idx2 = idx := by
  obtain ⟨h1, h2, h3⟩ := hrun
  simp only [moveSnake, h1, h2, h3, hsnake, hnoeat, Bool.or_self, Bool.not_true,
    Bool.or_false, Bool.false_eq_true, if_false] at hmove
  split at hmove
  · simp only [Option.some.injEq, Prod.mk.injEq] at hmove
    obtain ⟨hs, -⟩ := hmove
    rw [← hs] at hover
    simp [recordGameOver] at hover
  · split at hmove
    · simp only [Option.some.injEq, Prod.mk.injEq] at hmove
      obtain ⟨hs, -⟩ := hmove
      rw [← hs] at hover
      simp [recordGameOver] at hover
    · split at hmove
      · simp only [Option.some.injEq, Prod.mk.injEq] at hmove
        obtain ⟨hs, -⟩ := hmove
        rw [← hs] at hover
        simp [recordGameOver] at hover
      · simp only [Option.some.injEq, Prod.mk.injEq] at hmove
        obtain ⟨hs, hidx⟩ := hmove
        subst hs
        exact ⟨by rw [hsnake], rfl, rfl, rfl, rfl, rfl, rfl, hidx.symm⟩

/-- Across every tick outcome: the speed is kept or gets the food-eat
update, the score is kept or bumped by 10, and the high score never
drops. -/
theorem moveSnake_fields (stream : Nat → Nat × Nat) (fuel : Nat) (s : GameState)
    (idx : Nat) (s' : GameState) (idx2 : Nat)
    (hmove : moveSnake stream fuel s idx = some (s', idx2)) :
    (s'.speed = s.speed ∨ s'.speed = max MIN_SPEED (s.speed - SPEED_INCREASE)) ∧
    (s'.score = s.score ∨ s'.score = s.score + 10) ∧
    s.highScore ≤ s'.highScore ∧
    (s'.gameOver = true → s'.speed = s.speed ∧ s'.score = s.score) := by
  simp only [moveSnake] at hmove
  split at hmove
  · simp only [Option.some.injEq, Prod.mk.injEq] at hmove
    obtain ⟨hs, -⟩ := hmove
    subst hs
    exact ⟨Or.inl rfl, Or.inl rfl, le_refl _, fun _ => ⟨rfl, rfl⟩⟩
  · rename_i hguard
    split at hmove
    · exact absurd hmove (by simp)
    · split at hmove
      · simp only [Option.some.injEq, Prod.mk.injEq] at hmove
        obtain ⟨hs, -⟩ := hmove
        subst hs
        refine ⟨Or.inl rfl, Or.inl rfl, ?_, fun _ => ⟨rfl, rfl⟩⟩
        dsimp [recordGameOver]
        split <;> omega
      · split at hmove
        · simp only [Option.some.injEq, Prod.mk.injEq] at hmove
          obtain ⟨hs, -⟩ := hmove
          subst hs
          refine ⟨Or.inl rfl, Or.inl rfl, ?_, fun _ => ⟨rfl, rfl⟩⟩
          dsimp [recordGameOver]
          split <;> omega
        · split at hmove
          · simp only [Option.some.injEq, Prod.mk.injEq] at hmove
            obtain ⟨hs, -⟩ := hmove
            subst hs
            refine ⟨Or.inl rfl, Or.inl rfl, ?_, fun _ => ⟨rfl, rfl⟩⟩
            dsimp [recordGameOver]
            split <;> omega
          · split at hmove
            · split at hmove
              · exact absurd hmove (by simp)
              · split at hmove
                · exact absurd hmove (by simp)
                · simp only [Option.some.injEq, Prod.mk.injEq] at hmove
                  obtain ⟨hs, -⟩ := hmove
                  subst hs
                  refine ⟨Or.inr rfl, Or.inr rfl, le_refl _, fun hfalse => ?_⟩
                  have hgo : s.gameOver = true := hfalse
                  simp [hgo] at hguard
            · simp only [Option.some.injEq, Prod.mk.injEq] at hmove
              obtain ⟨hs, -⟩ := hmove
              subst hs
              exact ⟨Or.inl rfl, Or.inl rfl, le_refl _, fun _ => ⟨rfl, rfl⟩⟩

/-- A key event either restarts the session through `initGame` (space
while over) or leaves the whole entity and score state untouched apart
from the pause flag and the committed heading. -/
theorem handleKeyPress_cases (stream : Nat → Nat × Nat) (fuel : Nat) (s : GameState)
    (k : Key) (idx : Nat) (s' : GameState) (idx2 : Nat)
    (h : handleKeyPress stream fuel s k idx = some (s', idx2)) :
    (k = .space ∧ s.gameOver = true ∧
      initGame stream fuel s idx = some (s', idx2)) ∨
    (s'.score = s.score ∧ s'.speed = s.speed ∧ s'.highScore = s.highScore ∧
      s'.food = s.food ∧ s'.obstacles = s.obstacles ∧ s'.snake = s.snake) := by
  simp only [handleKeyPress] at h
  split at h
  · simp only [Option.some.injEq, Prod.mk.injEq] at h
    obtain ⟨hs, -⟩ := h
    subst hs
    exact Or.inr ⟨rfl, rfl, rfl, rfl, rfl, rfl⟩
  · split at h
    · rename_i hk
      split at h
      · rename_i hgo
        exact Or.inl ⟨hk, by simpa using hgo, h⟩
      · simp only [Option.some.injEq, Prod.mk.injEq] at h
        obtain ⟨hs, -⟩ := h
        subst hs
        exact Or.inr ⟨rfl, rfl, rfl, rfl, rfl, rfl⟩
    · split at h
      · simp only [Option.some.injEq, Prod.mk.injEq] at h
        obtain ⟨hs, -⟩ := h
        subst hs
        exact Or.inr ⟨rfl, rfl, rfl, rfl, rfl, rfl⟩
      · simp only [Option.some.injEq, Prod.mk.injEq] at h
        obtain ⟨hs, -⟩ := h
        subst hs
        exact Or.inr ⟨rfl, rfl, rfl, rfl, rfl, rfl⟩

/-- One serialized event keeps the score a multiple of 10 and never
lowers the high score. -/
theorem step_score_highScore (stream : Nat → Nat × Nat) (fuel : Nat) (s : GameState)
    (e : Event) (idx : Nat) (s' : GameState) (idx2 : Nat)
    (h : step stream fuel s e idx = some (s', idx2)) :
    (s.score % 10 = 0 → s'.score % 10 = 0) ∧ s.highScore ≤ s'.highScore := by
  cases e with
  | tick =>
    obtain ⟨-, hscore, hhs, -⟩ := moveSnake_fields stream fuel s idx s' idx2 h
    refine ⟨?_, hhs⟩
    intro h0
    rcases hscore with h10 | h10 <;> rw [h10] <;> omega
  | key k =>
    rcases handleKeyPress_cases stream fuel s k idx s' idx2 h with
      ⟨-, -, hinit⟩ | ⟨hsc, -, hhs, -⟩
    · obtain ⟨-, -, -, hsc, -, hhs, -⟩ := initGame_spec stream fuel s idx s' idx2 hinit
      exact ⟨fun _ => by rw [hsc], le_of_eq hhs.symm⟩
    · exact ⟨fun h0 => by rw [hsc]; exact h0, le_of_eq hhs.symm⟩
  | start =>
    simp only [step] at h
    split at h
    · simp only [Option.some.injEq, Prod.mk.injEq] at h
      obtain ⟨hs, -⟩ := h
      subst hs
      exact ⟨fun h0 => h0, le_refl _⟩
    · obtain ⟨-, -, -, hsc, -, hhs, -⟩ := initGame_spec stream fuel _ idx s' idx2 h
      exact ⟨fun _ => by rw [hsc], le_of_eq hhs.symm⟩
  | playAgain =>
    simp only [step] at h
    split at h
    · obtain ⟨-, -, -, hsc, -, hhs, -⟩ := initGame_spec stream fuel s idx s' idx2 h
      exact ⟨fun _ => by rw [hsc], le_of_eq hhs.symm⟩
    · simp only [Option.some.injEq, Prod.mk.injEq] at h
      obtain ⟨hs, -⟩ := h
      subst hs
      exact ⟨fun h0 => h0, le_refl _⟩
  | exitGame =>
    simp only [step] at h
    split at h
    · simp only [Option.some.injEq, Prod.mk.injEq] at h
      obtain ⟨hs, -⟩ := h
      subst hs
      exact ⟨fun h0 => h0, le_refl _⟩
    · simp only [Option.some.injEq, Prod.mk.injEq] at h
      obtain ⟨hs, -⟩ := h
      subst hs
      exact ⟨fun h0 => h0, le_refl _⟩

/-- Score stays a multiple of 10 along any event run. -/
theorem runFrom_score_mod (stream : Nat → Nat × Nat) (fuel : Nat) :
    ∀ (evs : List Event) (si : GameState × Nat) (s' : GameState) (idx2 : Nat),
      runFrom stream fuel evs si = some (s', idx2) →
      si.1.score % 10 = 0 → s'.score % 10 = 0 := by
  intro evs
  induction evs with
  | nil =>
    intro si s' idx2 h h0
    obtain ⟨s0, i0⟩ := si
    simp only [runFrom, Option.some.injEq, Prod.mk.injEq] at h
    obtain ⟨hs, -⟩ := h
    rw [← hs]
    exact h0
  | cons e evs ih =>
    intro si s' idx2 h h0
    simp only [runFrom] at h
    split at h
    · exact absurd h (by simp)
    · rename_i si' hstep
      obtain ⟨s1, i1⟩ := si'
      exact ih (s1, i1) s' idx2 h
        ((step_score_highScore stream fuel si.1 e si.2 s1 i1 hstep).1 h0)

/-- `enumStream` hits every board cell: cell (x, y) appears at draw
index `x.toNat + 15 * y.toNat`. -/
theorem enumStream_covers :
    ∀ p : Pos, outOfBounds p = false → ∃ i, randCell enumStream i = p := by
  intro p h
  obtain ⟨x, y⟩ := p
  simp only [outOfBounds, GRID_SIZE] at h
  simp only [Bool.or_eq_false_iff, decide_eq_false_iff_not, not_lt, not_le] at h
  refine ⟨x.toNat + 15 * y.toNat, ?_⟩
  simp only [randCell, enumStream]
  rw [Pos.mk.injEq]
  simp only [Int.ofNat_eq_natCast]
  constructor <;> omega

/-! ### The claims -/

/-- C1: every Running tick whose computed new head is out of bounds, on a
snake cell, or on an obstacle cell moves the session to Over while snake,
food, obstacles, score and speed stay exactly as before, and bestScore
becomes the score exactly when the score exceeds the previous bestScore. -/
theorem tick_collision_frame (stream : Nat → Nat × Nat) (fuel : Nat)
    (s : GameState) (idx : Nat) (prevHead : Pos) (rest : List Pos)
    (hrun : Running s) (hsnake : s.snake = prevHead :: rest)
    (hdeath : outOfBounds (applyDirection s.direction prevHead) = true ∨
      containsPos s.snake (applyDirection s.direction prevHead) = true ∨
      s.obstacles.any
        (fun obs => posEq obs.position (applyDirection s.direction prevHead)) = true) :
    moveSnake stream fuel s idx = some (recordGameOver s, idx) ∧
    (recordGameOver s).gameOver = true ∧
    (recordGameOver s).snake = s.snake ∧
    (recordGameOver s).food = s.food ∧
    (recordGameOver s).obstacles = s.obstacles ∧
    (recordGameOver s).score = s.score ∧
    (recordGameOver s).speed = s.speed ∧
    (s.highScore < s.score → (recordGameOver s).highScore = s.score) ∧
    (¬ s.highScore < s.score → (recordGameOver s).highScore = s.highScore) := by
  refine ⟨moveSnake_death stream fuel s idx prevHead rest hrun hsnake hdeath,
    rfl, rfl, rfl, rfl, rfl, rfl, ?_, ?_⟩
  · intro hlt
    dsimp [recordGameOver]
    rw [if_pos hlt]
  · intro hge
    dsimp [recordGameOver]
    rw [if_neg hge]

theorem tick_collision_frame_witness :
    moveSnake diagStream 1 wallState 0 = some (recordGameOver wallState, 0) ∧
    (recordGameOver wallState).gameOver = true ∧
    (recordGameOver wallState).snake = wallState.snake ∧
    (recordGameOver wallState).food = wallState.food ∧
    (recordGameOver wallState).obstacles = wallState.obstacles ∧
    (recordGameOver wallState).score = wallState.score ∧
    (recordGameOver wallState).speed = wallState.speed ∧
    (wallState.highScore < wallState.score →
      (recordGameOver wallState).highScore = wallState.score) ∧
    (¬ wallState.highScore < wallState.score →
      (recordGameOver wallState).highScore = wallState.highScore) :=
  tick_collision_frame diagStream 1 wallState 0 { x := 14, y := 10 } []
    ⟨rfl, rfl, rfl⟩ rfl (Or.inl (by decide))

/-- C2: right after session initialization and right after every food-eat
regeneration, the food differs from every snake cell and every obstacle
cell, and the obstacles are pairwise distinct and disjoint from the
snake, its buffer zone and the food. -/
theorem placement_event_invariant (stream : Nat → Nat × Nat) (fuel : Nat)
    (s : GameState) (idx : Nat) :
    (∀ s' idx2, initGame stream fuel s idx = some (s', idx2) →
      placementOK s'.snake s'.food s'.obstacles) ∧
    (∀ prevHead rest s' idx2, Running s → s.snake = prevHead :: rest →
      posEq (applyDirection s.direction prevHead) s.food = true →
      moveSnake stream fuel s idx = some (s', idx2) → s'.gameOver = false →
      placementOK s'.snake s'.food s'.obstacles) := by
  constructor
  · intro s' idx2 h
    exact (initGame_spec stream fuel s idx s' idx2 h).2.2.2.2.2.2.2.2.2
  · intro prevHead rest s' idx2 hrun hsnake heat hmove hover
    exact (moveSnake_eat_spec stream fuel s idx prevHead rest s' idx2
      hrun hsnake heat hmove hover).2.2.2.2.2

theorem placement_event_invariant_witness :
    placementOK initResult.snake initResult.food initResult.obstacles :=
  (placement_event_invariant diagStream 2 initialState 0).1 initResult 4 (by decide)

/-- C3: a Running tick that does not end the session grows the snake by
exactly one cell when the new head is the food cell and keeps the length
unchanged otherwise; the length never grows by more than one and is never
negative. -/
theorem tick_length_change (stream : Nat → Nat × Nat) (fuel : Nat)
    (s : GameState) (idx : Nat) (prevHead : Pos) (rest : List Pos)
    (s' : GameState) (idx2 : Nat)
    (hrun : Running s) (hsnake : s.snake = prevHead :: rest)
    (hmove : moveSnake stream fuel s idx = some (s', idx2))
    (hover : s'.gameOver = false) :
    s'.snake.length = s.snake.length +
      (if posEq (applyDirection s.direction prevHead) s.food = true then 1 else 0) ∧
    s'.snake.length ≤ s.snake.length + 1 ∧
    0 ≤ s'.snake.length := by
  by_cases heat : posEq (applyDirection s.direction prevHead) s.food = true
  · obtain ⟨hsn, -⟩ := moveSnake_eat_spec stream fuel s idx prevHead rest s' idx2
      hrun hsnake heat hmove hover
    rw [if_pos heat, hsn]
    simp
  · have hne : posEq (applyDirection s.direction prevHead) s.food = false := by
      simpa using heat
    obtain ⟨hsn, -⟩ := moveSnake_noeat stream fuel s idx prevHead rest s' idx2
      hrun hsnake hne hmove hover
    rw [if_neg heat, hsn, hsnake]
    simp

theorem tick_length_change_witness :
    tickResult.snake.length = runState.snake.length +
      (if posEq (applyDirection runState.direction { x := 10, y := 10 })
          runState.food = true then 1 else 0) ∧
    tickResult.snake.length ≤ runState.snake.length + 1 ∧
    0 ≤ tickResult.snake.length :=
  tick_length_change diagStream 1 runState 0 { x := 10, y := 10 } [] tickResult 0
    ⟨rfl, rfl, rfl⟩ rfl (by decide) rfl

/-- C4: the self-collision check runs against the pre-move snake
including its tail, so a Running tick whose new head equals the current
tail cell ends the session even though a non-growth move would have
vacated that cell, and the snake is left unchanged. -/
theorem tail_cell_collision (stream : Nat → Nat × Nat) (fuel : Nat)
    (s : GameState) (idx : Nat) (prevHead : Pos) (rest : List Pos)
    (hrun : Running s) (hsnake : s.snake = prevHead :: rest)
    (htail : applyDirection s.direction prevHead =
      (prevHead :: rest).getLast (List.cons_ne_nil prevHead rest)) :
    moveSnake stream fuel s idx = some (recordGameOver s, idx) ∧
    (recordGameOver s).gameOver = true ∧
    (recordGameOver s).snake = s.snake := by
  have hmem : applyDirection s.direction prevHead ∈ s.snake := by
    rw [hsnake, htail]
    exact List.getLast_mem _
  exact ⟨moveSnake_death stream fuel s idx prevHead rest hrun hsnake
    (Or.inr (Or.inl (containsPos_iff.mpr hmem))), rfl, rfl⟩

theorem tail_cell_collision_witness :
    moveSnake diagStream 1 tailState 0 = some (recordGameOver tailState, 0) ∧
    (recordGameOver tailState).gameOver = true ∧
    (recordGameOver tailState).snake = tailState.snake :=
  tail_cell_collision diagStream 1 tailState 0 { x := 5, y := 5 } [{ x := 4, y := 5 }]
    ⟨rfl, rfl, rfl⟩ rfl (by decide)

/-- C5: right after every surviving food-eat tick the obstacle count is
`min (3 + s / 50) 8` for the updated score `s` (the old score plus 10),
hence always between 3 and 8, and a fresh session starts with exactly 3
obstacles. -/
theorem obstacle_count_formula (stream : Nat → Nat × Nat) (fuel : Nat)
    (s : GameState) (idx : Nat) :
    (∀ prevHead rest s' idx2, Running s → s.snake = prevHead :: rest →
      posEq (applyDirection s.direction prevHead) s.food = true →
      moveSnake stream fuel s idx = some (s', idx2) → s'.gameOver = false →
      s'.score = s.score + 10 ∧
      s'.obstacles.length = min (3 + s'.score / 50) 8 ∧
      3 ≤ s'.obstacles.length ∧ s'.obstacles.length ≤ 8) ∧
    (∀ s' idx2, initGame stream fuel s idx = some (s', idx2) →
      s'.obstacles.length = 3) := by
  constructor
  · intro prevHead rest s' idx2 hrun hsnake heat hmove hover
    obtain ⟨-, hsc, -, hlen, -⟩ := moveSnake_eat_spec stream fuel s idx prevHead rest
      s' idx2 hrun hsnake heat hmove hover
    rw [hsc]
    exact ⟨rfl, hlen, by rw [hlen]; exact le_min (by omega) (by norm_num),
      by rw [hlen]; exact min_le_right _ _⟩
  · intro s' idx2 h
    exact (initGame_spec stream fuel s idx s' idx2 h).2.2.2.2.2.2.2.2.1

theorem obstacle_count_formula_witness :
    eatResult.score = eatState.score + 10 ∧
    eatResult.obstacles.length = min (3 + eatResult.score / 50) 8 ∧
    3 ≤ eatResult.obstacles.length ∧ eatResult.obstacles.length ≤ 8 :=
  (obstacle_count_formula diagStream 5 eatState 0).1 { x := 10, y := 10 } []
    eatResult 4 ⟨rfl, rfl, rfl⟩ rfl (by decide) (by decide) rfl

/-- C6: speed starts a session at 150; every surviving food-eat tick sets
it to `max 50 (speed - 5)`; a surviving non-eat tick, an ending tick and
every non-restart key event keep it; and from any speed at or above the
floor a tick never raises it and never drops it below the floor. -/
theorem speed_policy (stream : Nat → Nat × Nat) (fuel : Nat)
    (s : GameState) (idx : Nat) :
    (∀ s' idx2, initGame stream fuel s idx = some (s', idx2) →
      s'.speed = INITIAL_SPEED) ∧
    (∀ prevHead rest s' idx2, Running s → s.snake = prevHead :: rest →
      posEq (applyDirection s.direction prevHead) s.food = true →
      moveSnake stream fuel s idx = some (s', idx2) → s'.gameOver = false →
      s'.speed = max MIN_SPEED (s.speed - SPEED_INCREASE)) ∧
    (∀ prevHead rest s' idx2, Running s → s.snake = prevHead :: rest →
      posEq (applyDirection s.direction prevHead) s.food = false →
      moveSnake stream fuel s idx = some (s', idx2) → s'.gameOver = false →
      s'.speed = s.speed) ∧
    (∀ s' idx2, moveSnake stream fuel s idx = some (s', idx2) →
      s'.gameOver = true → s'.speed = s.speed) ∧
    (∀ k s' idx2, handleKeyPress stream fuel s k idx = some (s', idx2) →
      ¬(k = Key.space ∧ s.gameOver = true) → s'.speed = s.speed) ∧
    (∀ s' idx2, moveSnake stream fuel s idx = some (s', idx2) →
      MIN_SPEED ≤ s.speed → s'.speed ≤ s.speed ∧ MIN_SPEED ≤ s'.speed) := by
  refine ⟨?_, ?_, ?_, ?_, ?_, ?_⟩
  · intro s' idx2 h
    exact (initGame_spec stream fuel s idx s' idx2 h).2.2.2.2.1
  · intro prevHead rest s' idx2 hrun hsnake heat hmove hover
    exact (moveSnake_eat_spec stream fuel s idx prevHead rest s' idx2
      hrun hsnake heat hmove hover).2.2.1
  · intro prevHead rest s' idx2 hrun hsnake hne hmove hover
    exact (moveSnake_noeat stream fuel s idx prevHead rest s' idx2
      hrun hsnake hne hmove hover).2.2.2.2.2.1
  · intro s' idx2 hmove hover
    exact ((moveSnake_fields stream fuel s idx s' idx2 hmove).2.2.2 hover).1
  · intro k s' idx2 h hnot
    rcases handleKeyPress_cases stream fuel s k idx s' idx2 h with
      ⟨hk, hgo, -⟩ | ⟨-, hsp, -⟩
    · exact absurd ⟨hk, hgo⟩ hnot
    · exact hsp
  · intro s' idx2 hmove hmin
    obtain ⟨hspeed, -, -, -⟩ := moveSnake_fields stream fuel s idx s' idx2 hmove
    rcases hspeed with h10 | h10 <;> rw [h10] <;>
      simp only [MIN_SPEED, SPEED_INCREASE] at hmin ⊢ <;> constructor <;> omega

theorem speed_policy_witness :
    eatResult.speed = max MIN_SPEED (eatState.speed - SPEED_INCREASE) ∧
    (eatResult.speed ≤ eatState.speed ∧ MIN_SPEED ≤ eatResult.speed) :=
  ⟨(speed_policy diagStream 5 eatState 0).2.1 { x := 10, y := 10 } [] eatResult 4
      ⟨rfl, rfl, rfl⟩ rfl (by decide) (by decide) rfl,
    (speed_policy diagStream 5 eatState 0).2.2.2.2.2 eatResult 4 (by decide) (by decide)⟩

/-- C7: along every event run from the initial state the score is a
non-negative multiple of 10, and no single operation, restarts included,
ever lowers the best score. -/
theorem score_bestScore_invariant (stream : Nat → Nat × Nat) (fuel : Nat) :
    (∀ evs s' idx2, runEvents stream fuel evs = some (s', idx2) →
      s'.score % 10 = 0 ∧ 0 ≤ s'.score) ∧
    (∀ s e idx s' idx2, step stream fuel s e idx = some (s', idx2) →
      s.highScore ≤ s'.highScore) := by
  constructor
  · intro evs s' idx2 h
    exact ⟨runFrom_score_mod stream fuel evs (initialState, 0) s' idx2 h rfl,
      Nat.zero_le _⟩
  · intro s e idx s' idx2 h
    exact (step_score_highScore stream fuel s e idx s' idx2 h).2

theorem score_bestScore_invariant_witness :
    runResult.score % 10 = 0 ∧ 0 ≤ runResult.score :=
  (score_bestScore_invariant diagStream 5).1 [Event.start, Event.tick] runResult 4
    (by decide)

/-- C8: committing the exact opposite of the committed heading never
changes it: for every heading, the key requesting its direct reverse
leaves the committed heading as it was. -/
theorem reversal_commit_noop :
    ∀ d : Direction, handleDirectionKey d (keyFor (opposite d)) = d := by
  intro d
  cases d <;> rfl

/-- C9: with a fair stream (one that reaches every board cell), the
rejection-sampling placement succeeds for every exclusion set that leaves
a free board cell, returning an in-bounds cell outside the exclusion set;
when the exclusion set covers the whole board it loops forever (no fuel
bound ever returns). -/
theorem placement_termination (stream : Nat → Nat × Nat) (exclude : List Pos) :
    ((∀ p, outOfBounds p = false → ∃ i, randCell stream i = p) →
      (∃ p, outOfBounds p = false ∧ containsPos exclude p = false) →
      ∃ fuel p i, generateRandomPosition stream exclude fuel = some (p, i) ∧
        outOfBounds p = false ∧ containsPos exclude p = false) ∧
    ((∀ p, outOfBounds p = false → containsPos exclude p = true) →
      ∀ fuel, generateRandomPosition stream exclude fuel = none) := by
  constructor
  · intro hsurj hfree
    obtain ⟨p, hpb, hpfree⟩ := hfree
    obtain ⟨i, hi⟩ := hsurj p hpb
    obtain ⟨q, i', hq⟩ := genPosAux_found stream exclude (i + 1) 0
      ⟨i, by omega, by rw [Nat.zero_add, hi]; exact hpfree⟩
    obtain ⟨hnc, hb⟩ := genPosAux_some stream exclude (i + 1) 0 q i' hq
    exact ⟨i + 1, q, i', hq, hb, hnc⟩
  · intro hfull fuel
    exact genPosAux_none stream exclude hfull fuel 0

theorem placement_termination_witness :
    ∃ fuel p i, generateRandomPosition enumStream [] fuel = some (p, i) ∧
      outOfBounds p = false ∧ containsPos [] p = false :=
  (placement_termination enumStream []).1 enumStream_covers
    ⟨{ x := 0, y := 0 }, by decide, by decide⟩

/-- C10: key events are validated against the pending committed heading,
not the heading the last tick applied: from committed RIGHT, an up key
then a left key commit LEFT, the direct reverse of RIGHT, and running
tick, up key, left key, tick from `demoState` moves the head right and
then back onto its starting cell. -/
theorem pending_heading_reversal :
    handleDirectionKey (handleDirectionKey .RIGHT .up) .left = opposite .RIGHT ∧
    (runFrom diagStream 1 [.tick] (demoState, 0)).map
      (fun si => si.1.snake) = some [{ x := 6, y := 5 }] ∧
    (runFrom diagStream 1 [.tick, .key .up, .key .left, .tick] (demoState, 0)).map
      (fun si => (si.1.snake, si.1.direction)) =
      some ([{ x := 5, y := 5 }], .LEFT) := by
  refine ⟨rfl, by decide, by decide⟩

end Snake
